import Mathlib

/-!
Shallow embedding of the FuelBoss server's stock-reconciliation and
sales-aggregation engines (`server/storage.ts`, `DatabaseStorage`), over an
explicit relational state (`DB`).

Modelling conventions:
* `decimal(10,2)` SQL columns (volumes and currency amounts) are modelled as
  `Int`, understood as the exact decimal value scaled into hundredths.  Every
  arithmetic step the engines perform on these columns (addition,
  subtraction, `SUM`, `max` with 0) is linear with integer coefficients, so
  the scaled-integer model is exact — the same exact-decimal arithmetic the
  store performs, with no floating-point rounding.
* `varchar` date columns (`shiftDate`, `YYYY-MM-DD`) are `String`s compared
  lexicographically (`strLt`/`strLe` below), exactly as SQL compares varchar.
* timestamps (`createdAt`, `updatedAt`, the `shift_date` timestamp of the
  `shift_sales` table) are `Nat`.
* SQL inner joins are modelled as list binds producing one row per matching
  pair, preserving join multiplicity.
-/

namespace FuelBoss

/-! ### Lexicographic varchar order -/

/-- Strict lexicographic order on char lists, as SQL compares varchar. -/
def lexLtB : List Char → List Char → Bool
  | [], [] => false
  | [], _ :: _ => true
  | _ :: _, [] => false
  | c :: cs, d :: ds => if c < d then true else if d < c then false else lexLtB cs ds

/-- Non-strict lexicographic order on char lists. -/
def lexLeB : List Char → List Char → Bool
  | [], _ => true
  | _ :: _, [] => false
  | c :: cs, d :: ds => if c < d then true else if d < c then false else lexLeB cs ds

/-- `a < b` for varchar values. -/
def strLt (a b : String) : Prop := lexLtB a.data b.data = true

/-- `a <= b` for varchar values (SQL `>=` reversed). -/
def strLe (a b : String) : Prop := lexLeB a.data b.data = true

instance (a b : String) : Decidable (strLt a b) := inferInstanceAs (Decidable (_ = _))

instance (a b : String) : Decidable (strLe a b) := inferInstanceAs (Decidable (_ = _))

/-! ### Data model -/

/-- Row of the `tanks` table (the columns the engine reads). -/
structure Tank where
  id : String
  retailOutletId : String
  productId : String
  tankNumber : String
  isActive : Bool
deriving DecidableEq, Repr

/-- Row of the `products` table. -/
structure Product where
  id : String
  retailOutletId : String
  name : String
  isActive : Bool
deriving DecidableEq, Repr

/-- Row of the `nozzles` table. -/
structure Nozzle where
  id : String
  dispensingUnitId : String
  tankId : String
  nozzleNumber : Nat
  isActive : Bool
deriving DecidableEq, Repr

/-- Row of the `staff` table. -/
structure Staff where
  id : String
  retailOutletId : String
  name : String
  role : String
  isActive : Bool
deriving DecidableEq, Repr

/-- Row of the `nozzle_readings` table.  `testing` is a nullable decimal
column (the source applies `COALESCE(testing, 0)`), hence `Option Int`. -/
structure NozzleReading where
  id : String
  retailOutletId : String
  nozzleId : String
  attendantId : String
  shiftType : String
  shiftDate : String
  previousReading : Int
  currentReading : Int
  testing : Option Int
  totalSale : Int
  cashSales : Int
  creditSales : Int
  upiSales : Int
  cardSales : Int
  createdAt : Nat
deriving DecidableEq, Repr

/-- Row of the `stock_entries` table. -/
structure StockEntry where
  id : String
  retailOutletId : String
  tankId : String
  managerId : String
  shiftType : String
  shiftDate : String
  openingStock : Int
  receipt : Int
  invoiceValue : Int
  createdAt : Nat
deriving DecidableEq, Repr

/-- Row of the persisted `shift_sales` table (used by `getShiftSalesStats`).
Its `shift_date` column is a timestamp, modelled as `Nat`. -/
structure ShiftSalesRow where
  id : String
  retailOutletId : String
  staffId : String
  shiftDate : Nat
  shiftType : String
  cashSales : Int
  creditSales : Int
  upiSales : Int
  cardSales : Int
  totalSales : Int
deriving DecidableEq, Repr

/-- One element of a shift's `productRates` jsonb list. -/
structure ProductRate where
  productId : String
  productName : String
  rate : Int
deriving DecidableEq, Repr

/-- Row of the `shifts` table.  `productRates` is a nullable jsonb column
(`none` = SQL NULL, `some []` = the empty-array default).  `createdDate` is
the date portion of `created_at` (the source compares `DATE(created_at)`). -/
structure Shift where
  id : String
  managerId : String
  shiftType : String
  shiftDate : Option String
  status : String
  productRates : Option (List ProductRate)
  createdDate : String
  updatedAt : Nat
deriving DecidableEq, Repr

/-- The relational store visible to the two engines. -/
structure DB where
  tanks : List Tank
  products : List Product
  nozzles : List Nozzle
  staff : List Staff
  nozzleReadings : List NozzleReading
  stockEntries : List StockEntry
  shiftSales : List ShiftSalesRow
  shifts : List Shift
deriving DecidableEq, Repr

/-! ### Stock reconciliation engine (`getTanksByRetailOutletId`) -/

/-- `a` strictly later than `b` in the `ORDER BY shift_date DESC, created_at
DESC` sense used to pick the latest stock entry. -/
def entryLater (a b : StockEntry) : Prop :=
  strLt b.shiftDate a.shiftDate ∨ (a.shiftDate = b.shiftDate ∧ b.createdAt < a.createdAt)

instance (a b : StockEntry) : Decidable (entryLater a b) :=
  inferInstanceAs (Decidable (_ ∨ _))

/-- `ORDER BY shift_date DESC, created_at DESC LIMIT 1` over a list of stock
entries: a maximal element (the first such element on full ties). -/
def pickLatestEntry : List StockEntry → Option StockEntry
  | [] => none
  | e :: es =>
    match pickLatestEntry es with
    | none => some e
    | some m => if entryLater m e then some m else some e

/-- The latest stock entry of a tank, as the source's first query computes it
(`where(eq(stockEntries.tankId, tank.id)).orderBy(desc(shiftDate),
desc(createdAt)).limit(1)`). -/
def latestStockEntry (db : DB) (tankId : String) : Option StockEntry :=
  pickLatestEntry (db.stockEntries.filter (fun e => decide (e.tankId = tankId)))

/-- JavaScript `x || d` on an optional string: `undefined` and the empty
string are falsy (`latestStockEntry[0]?.shiftDate || today`). -/
def jsOrElse (s : Option String) (d : String) : String :=
  match s with
  | none => d
  | some v => if v = "" then d else v

/-- The reading-filter cutoff date: the latest stock entry's `shiftDate`, or
`today` when the tank has no stock entry (or an empty-string date). -/
def cutoffDate (db : DB) (tankId today : String) : String :=
  jsOrElse ((latestStockEntry db tankId).map (fun e => e.shiftDate)) today

/-- Dispensed volume of one reading row inside the SQL sum:
`currentReading - previousReading - COALESCE(testing, 0)`. -/
def readingVolume (r : NozzleReading) : Int :=
  r.currentReading - r.previousReading - (r.testing.getD 0)

/-- The joined row set of the dispensed-volume query over explicit reading
and nozzle lists: `nozzle_readings INNER JOIN nozzles ON nozzleId = nozzles.id
WHERE nozzles.tankId = tankId AND nozzle_readings.shiftDate >= cutoff`.
One row per matching (reading, nozzle) pair, as in SQL. -/
def dispensedRowsOf (readings : List NozzleReading) (nozzles : List Nozzle)
    (tankId cutoff : String) : List NozzleReading :=
  (readings.flatMap (fun r =>
    (nozzles.filter (fun n => decide (n.id = r.nozzleId ∧ n.tankId = tankId))).map
      (fun _ => r))).filter
    (fun r => decide (strLe cutoff r.shiftDate))

/-- The joined row set of the dispensed-volume query against the store. -/
def dispensedRows (db : DB) (tankId cutoff : String) : List NozzleReading :=
  dispensedRowsOf db.nozzleReadings db.nozzles tankId cutoff

/-- `COALESCE(SUM(currentReading - previousReading - COALESCE(testing,0)), 0)`
of the dispensed-volume query (an empty sum is 0). -/
def dispensedSum (db : DB) (tankId cutoff : String) : Int :=
  ((dispensedRows db tankId cutoff).map readingVolume).sum

/-- The per-tank current-stock computation of `getTanksByRetailOutletId`:
`max(0, openingStock + receipts - dispensed)` with opening stock and receipt
taken from the latest stock entry (0 when there is none). -/
def tankCurrentStock (db : DB) (tankId today : String) : Int :=
  let openingStock := ((latestStockEntry db tankId).map (fun e => e.openingStock)).getD 0
  let receipts := ((latestStockEntry db tankId).map (fun e => e.receipt)).getD 0
  let dispensed := dispensedSum db tankId (cutoffDate db tankId today)
  max 0 (openingStock + receipts - dispensed)

/-- One row of the result of `getTanksByRetailOutletId`. -/
structure TankWithStock where
  id : String
  retailOutletId : String
  productId : String
  tankNumber : String
  isActive : Bool
  productName : String
  currentStock : Int
deriving DecidableEq, Repr

/-- The row built for one (tank, product-name) pair. -/
def tankRowStock (db : DB) (today : String) (t : Tank) (productName : String) :
    TankWithStock :=
  { id := t.id
    retailOutletId := t.retailOutletId
    productId := t.productId
    tankNumber := t.tankNumber
    isActive := t.isActive
    productName := productName
    currentStock := tankCurrentStock db t.id today }

/-- `tanks INNER JOIN products ON tanks.productId = products.id WHERE
tanks.retailOutletId = oid AND tanks.isActive` (one row per matching pair). -/
def tanksWithProduct (db : DB) (oid : String) : List (Tank × Product) :=
  (db.tanks.filter (fun t => decide (t.retailOutletId = oid ∧ t.isActive = true))).flatMap
    (fun t => (db.products.filter (fun p => decide (p.id = t.productId))).map
      (fun p => (t, p)))

/-- `ORDER BY tanks.tank_number` comparison on joined (tank, product) rows. -/
def tankNumberLE (a b : Tank × Product) : Prop :=
  strLe a.1.tankNumber b.1.tankNumber

instance (a b : Tank × Product) : Decidable (tankNumberLE a b) :=
  inferInstanceAs (Decidable (strLe _ _))

/-- `DatabaseStorage.getTanksByRetailOutletId`: active tanks of the outlet
joined with their product, ordered by tank number, each carrying the computed
`currentStock`.  `today` stands for `new Date().toISOString().split('T')[0]`. -/
def getTanksByRetailOutletId (db : DB) (oid today : String) : List TankWithStock :=
  (List.insertionSort tankNumberLE (tanksWithProduct db oid)).map
    (fun tp => tankRowStock db today tp.1 tp.2.name)

/-- The spec's `computeCurrentStock(tankId)` as a caller observes it through
`getTanksByRetailOutletId`: the `currentStock` of the row whose `id` is the
requested tank, `none` (the `NotFound` outcome) when no such row exists. -/
def computeCurrentStock (db : DB) (oid today tankId : String) : Option Int :=
  ((getTanksByRetailOutletId db oid today).find? (fun row => decide (row.id = tankId))).map
    (fun row => row.currentStock)

/-! ### Sales aggregation engine (`getShiftSalesByRetailOutletId`) -/

/-- `nozzle_readings INNER JOIN staff ON attendantId = staff.id WHERE
retailOutletId = oid`: one row per matching (reading, staff) pair. -/
def readingStaffRows (db : DB) (oid : String) : List (NozzleReading × Staff) :=
  (db.nozzleReadings.filter (fun r => decide (r.retailOutletId = oid))).flatMap
    (fun r => (db.staff.filter (fun s => decide (s.id = r.attendantId))).map
      (fun s => (r, s)))

/-- The `GROUP BY` key of the shift-sales aggregation:
`(shiftDate, shiftType, attendantId, staff.name)`. -/
structure ShiftKey where
  shiftDate : String
  shiftType : String
  attendantId : String
  staffName : String
deriving DecidableEq, Repr

/-- Key of one joined row. -/
def rowKey (x : NozzleReading × Staff) : ShiftKey :=
  { shiftDate := x.1.shiftDate
    shiftType := x.1.shiftType
    attendantId := x.1.attendantId
    staffName := x.2.name }

/-- Distinct elements of a list, keeping the first occurrence of each. -/
def firstDedup {α : Type} [DecidableEq α] : List α → List α
  | [] => []
  | a :: as => a :: (firstDedup as).filter (fun b => decide (b ≠ a))

/-- One output row of the grouped query, with the five `SUM` columns. -/
structure GroupRow where
  key : ShiftKey
  totalCashSales : Int
  totalCreditSales : Int
  totalUpiSales : Int
  totalCardSales : Int
  totalSalesSum : Int
deriving DecidableEq, Repr

/-- The aggregate row of one group: the five sums over the joined rows whose
key equals `k`. -/
def groupFor (rows : List (NozzleReading × Staff)) (k : ShiftKey) : GroupRow :=
  let rs := rows.filter (fun x => decide (rowKey x = k))
  { key := k
    totalCashSales := (rs.map (fun x => x.1.cashSales)).sum
    totalCreditSales := (rs.map (fun x => x.1.creditSales)).sum
    totalUpiSales := (rs.map (fun x => x.1.upiSales)).sum
    totalCardSales := (rs.map (fun x => x.1.cardSales)).sum
    totalSalesSum := (rs.map (fun x => x.1.totalSale)).sum }

/-- `ORDER BY shift_date DESC, shift_type` on grouped rows. -/
def groupLE (a b : GroupRow) : Prop :=
  strLt b.key.shiftDate a.key.shiftDate ∨
    (a.key.shiftDate = b.key.shiftDate ∧ strLe a.key.shiftType b.key.shiftType)

instance (a b : GroupRow) : Decidable (groupLE a b) :=
  inferInstanceAs (Decidable (_ ∨ _))

/-- The grouped, ordered (pre-`LIMIT`) rows produced from a joined row set. -/
def shiftGroupsOfRows (rows : List (NozzleReading × Staff)) : List GroupRow :=
  List.insertionSort groupLE ((firstDedup (rows.map rowKey)).map (groupFor rows))

/-- The grouped, ordered rows of the outlet's shift-sales query. -/
def shiftGroups (db : DB) (oid : String) : List GroupRow :=
  shiftGroupsOfRows (readingStaffRows db oid)

/-- One synthesized shift-sales summary returned to the client. -/
structure ShiftSalesSummary where
  id : String
  retailOutletId : String
  staffId : String
  staffName : String
  shiftDate : String
  shiftType : String
  startTime : String
  endTime : String
  cashSales : Int
  creditSales : Int
  upiSales : Int
  cardSales : Int
  totalSales : Int
  notes : String
deriving DecidableEq, Repr

/-- The transform the source applies to each grouped row: synthesized id,
date converted to a midnight timestamp, and the fixed 06:00/18:00 display
window on the shift date. -/
def mkSummary (oid : String) (g : GroupRow) : ShiftSalesSummary :=
  { id := g.key.shiftDate ++ "-" ++ g.key.shiftType ++ "-" ++ g.key.attendantId
    retailOutletId := oid
    staffId := g.key.attendantId
    staffName := g.key.staffName
    shiftDate := g.key.shiftDate ++ "T00:00:00"
    shiftType := g.key.shiftType
    startTime := g.key.shiftDate ++ "T06:00:00"
    endTime := g.key.shiftDate ++ "T18:00:00"
    cashSales := g.totalCashSales
    creditSales := g.totalCreditSales
    upiSales := g.totalUpiSales
    cardSales := g.totalCardSales
    totalSales := g.totalSalesSum
    notes := "" }

/-- `DatabaseStorage.getShiftSalesByRetailOutletId`: group the outlet's
nozzle readings by `(shiftDate, shiftType, attendantId)` (joined with staff
for the name), order by `shiftDate` descending then `shiftType`, truncate to
`limit` groups (default 10), and synthesize summary records. -/
def getShiftSalesByRetailOutletId (db : DB) (oid : String) (limit : Nat := 10) :
    List ShiftSalesSummary :=
  ((shiftGroups db oid).take limit).map (mkSummary oid)

/-! ### Sales statistics (`getShiftSalesStats`) -/

/-- The per-payment-method breakdown of `getShiftSalesStats`. -/
structure PaymentBreakdown where
  cash : Int
  credit : Int
  upi : Int
  card : Int
deriving DecidableEq, Repr

/-- The result record of `getShiftSalesStats`. -/
structure SalesStats where
  weeklySales : Int
  monthlySales : Int
  paymentMethodBreakdown : PaymentBreakdown
deriving DecidableEq, Repr

/-- `DatabaseStorage.getShiftSalesStats`: sums over the persisted
`shift_sales` table.  `weekAgo` stands for the computed `now - 7 days`
timestamp and `monthAgo` for the `now - 1 calendar month` timestamp; the
weekly sum uses `weekAgo`, the monthly sum and the payment breakdown both use
`monthAgo`.  `SUM` of no rows is NULL in SQL and the source maps it to 0 with
`|| 0`; here the empty-list sum is 0 directly. -/
def getShiftSalesStats (db : DB) (oid : String) (weekAgo monthAgo : Nat) : SalesStats :=
  { weeklySales :=
      ((db.shiftSales.filter
          (fun s => decide (s.retailOutletId = oid ∧ weekAgo ≤ s.shiftDate))).map
        (fun s => s.totalSales)).sum
    monthlySales :=
      ((db.shiftSales.filter
          (fun s => decide (s.retailOutletId = oid ∧ monthAgo ≤ s.shiftDate))).map
        (fun s => s.totalSales)).sum
    paymentMethodBreakdown :=
      { cash :=
          ((db.shiftSales.filter
              (fun s => decide (s.retailOutletId = oid ∧ monthAgo ≤ s.shiftDate))).map
            (fun s => s.cashSales)).sum
        credit :=
          ((db.shiftSales.filter
              (fun s => decide (s.retailOutletId = oid ∧ monthAgo ≤ s.shiftDate))).map
            (fun s => s.creditSales)).sum
        upi :=
          ((db.shiftSales.filter
              (fun s => decide (s.retailOutletId = oid ∧ monthAgo ≤ s.shiftDate))).map
            (fun s => s.upiSales)).sum
        card :=
          ((db.shiftSales.filter
              (fun s => decide (s.retailOutletId = oid ∧ monthAgo ≤ s.shiftDate))).map
            (fun s => s.cardSales)).sum } }

/-! ### Product-rate fallback (`getLastProductRates`) -/

/-- JavaScript truthiness of an optional string parameter: `undefined` and
the empty string are falsy. -/
def jsTruthy (s : Option String) : Bool :=
  match s with
  | none => false
  | some v => decide (v ≠ "")

/-- `ORDER BY updated_at DESC LIMIT 1` over a list of shifts: an element with
maximal `updatedAt` (the first such element on ties). -/
def pickLatestShift : List Shift → Option Shift
  | [] => none
  | s :: ss =>
    match pickLatestShift ss with
    | none => some s
    | some m => if s.updatedAt < m.updatedAt then some m else some s

/-- `DatabaseStorage.getLastProductRates`: the three-tier fallback.  A tier
fires when its query finds a shift whose `productRates` column is non-null
(JavaScript `if (shift?.productRates)`; note an empty rates array is truthy
in JavaScript, so a found shift with `some []` fires the tier and returns the
empty list).  Tier 1 (`limit 1` with no ordering) is modelled as the first
matching row in table order. -/
def getLastProductRates (db : DB) (managerId : String)
    (targetDate targetShiftType : Option String) : List ProductRate :=
  let tier1 : Option (List ProductRate) :=
    if jsTruthy targetDate && jsTruthy targetShiftType then
      match (db.shifts.filter (fun s =>
          decide (s.managerId = managerId ∧ some s.shiftType = targetShiftType ∧
            some s.createdDate = targetDate))).head? with
      | some sh => sh.productRates
      | none => none
    else none
  match tier1 with
  | some rates => rates
  | none =>
    let tier2 : Option (List ProductRate) :=
      if jsTruthy targetShiftType then
        match pickLatestShift (db.shifts.filter (fun s =>
            decide (s.managerId = managerId ∧ some s.shiftType = targetShiftType))) with
        | some sh => sh.productRates
        | none => none
      else none
    match tier2 with
    | some rates => rates
    | none =>
      match pickLatestShift (db.shifts.filter (fun s => decide (s.managerId = managerId))) with
      | some sh => sh.productRates.getD []
      | none => []

/-! ### Insert operations (`createShiftSales`, `createNozzleReading`) -/

/-- The caller-supplied insert payload of `createShiftSales`
(`InsertShiftSales`); the five money fields are optional. -/
structure InsertShiftSales where
  retailOutletId : String
  staffId : String
  shiftDate : Nat
  shiftType : String
  cashSales : Option Int
  creditSales : Option Int
  upiSales : Option Int
  cardSales : Option Int
  totalSales : Option Int
deriving DecidableEq, Repr

/-- JavaScript `Number(x || 0)` on an optional amount. -/
def jsNumOr0 (x : Option Int) : Int := x.getD 0

/-- `DatabaseStorage.createShiftSales`: the row actually inserted (and
returned).  `totalSales` is recomputed as the sum of the four payment fields
(`Number(sales.cashSales || 0) + ...`), overriding any caller-supplied
`totalSales`; absent payment fields are stored with the column default 0. -/
def createShiftSales (s : InsertShiftSales) (newId : String) : ShiftSalesRow :=
  let totalSales := jsNumOr0 s.cashSales + jsNumOr0 s.creditSales +
    jsNumOr0 s.upiSales + jsNumOr0 s.cardSales
  { id := newId
    retailOutletId := s.retailOutletId
    staffId := s.staffId
    shiftDate := s.shiftDate
    shiftType := s.shiftType
    cashSales := s.cashSales.getD 0
    creditSales := s.creditSales.getD 0
    upiSales := s.upiSales.getD 0
    cardSales := s.cardSales.getD 0
    totalSales := totalSales }

/-- The caller-supplied insert payload of `createNozzleReading`
(`InsertNozzleReading` after zod validation). -/
structure InsertNozzleReading where
  retailOutletId : String
  nozzleId : String
  attendantId : String
  shiftType : String
  shiftDate : String
  previousReading : Int
  currentReading : Int
  testing : Option Int
  totalSale : Int
  cashSales : Int
  creditSales : Int
  upiSales : Int
  cardSales : Int
deriving DecidableEq, Repr

/-- `DatabaseStorage.createNozzleReading`: the row actually inserted — all
supplied fields stored unchanged, `totalSale` included (no recomputation). -/
def createNozzleReading (r : InsertNozzleReading) (newId : String) (now : Nat) :
    NozzleReading :=
  { id := newId
    retailOutletId := r.retailOutletId
    nozzleId := r.nozzleId
    attendantId := r.attendantId
    shiftType := r.shiftType
    shiftDate := r.shiftDate
    previousReading := r.previousReading
    currentReading := r.currentReading
    testing := r.testing
    totalSale := r.totalSale
    cashSales := r.cashSales
    creditSales := r.creditSales
    upiSales := r.upiSales
    cardSales := r.cardSales
    createdAt := now }

/-! ### Order theory for the varchar order -/

theorem lexLeB_eq_not_lexLtB : ∀ a b, lexLeB a b = !lexLtB b a
  | [], [] => rfl
  | [], _ :: _ => rfl
  | _ :: _, [] => rfl
  | c :: cs, d :: ds => by
    simp only [lexLeB, lexLtB]
    rcases lt_trichotomy c d with h | h | h
    · simp [h, h.asymm]
    · subst h
      simp [lt_irrefl, lexLeB_eq_not_lexLtB cs ds]
    · simp [h, h.asymm]

theorem lexLtB_irrefl : ∀ a, lexLtB a a = false
  | [] => rfl
  | c :: cs => by simp [lexLtB, lt_irrefl, lexLtB_irrefl cs]

theorem lexLeB_refl : ∀ a, lexLeB a a = true
  | [] => rfl
  | c :: cs => by simp [lexLeB, lt_irrefl, lexLeB_refl cs]

theorem lexLtB_trichotomy : ∀ a b, lexLtB a b = true ∨ a = b ∨ lexLtB b a = true
  | [], [] => Or.inr (Or.inl rfl)
  | [], _ :: _ => Or.inl rfl
  | _ :: _, [] => Or.inr (Or.inr rfl)
  | c :: cs, d :: ds => by
    rcases lt_trichotomy c d with h | h | h
    · exact Or.inl (by simp [lexLtB, h])
    · subst h
      rcases lexLtB_trichotomy cs ds with h2 | h2 | h2
      · exact Or.inl (by simp [lexLtB, lt_irrefl, h2])
      · exact Or.inr (Or.inl (by rw [h2]))
      · exact Or.inr (Or.inr (by simp [lexLtB, lt_irrefl, h2]))
    · exact Or.inr (Or.inr (by simp [lexLtB, h]))

theorem lexLtB_trans : ∀ a b c, lexLtB a b = true → lexLtB b c = true → lexLtB a c = true
  | a, b, [] => by
    intro _ h2
    cases b <;> simp [lexLtB] at h2
  | a, [], _ :: _ => by
    intro h1 _
    cases a <;> simp [lexLtB] at h1
  | [], _ :: _, _ :: _ => by intro _ _; rfl
  | a :: as, b :: bs, c :: cs => by
    intro h1 h2
    simp only [lexLtB] at h1 h2 ⊢
    rcases lt_trichotomy a b with hab | hab | hab
    · rcases lt_trichotomy b c with hbc | hbc | hbc
      · simp [lt_trans hab hbc]
      · subst hbc; simp [hab]
      · simp [hbc, hbc.asymm] at h2
    · subst hab
      rcases lt_trichotomy a c with hac | hac | hac
      · simp [hac]
      · subst hac
        simp only [lt_irrefl, if_false] at h1 h2 ⊢
        exact lexLtB_trans as bs cs h1 h2
      · simp [hac, hac.asymm] at h2
    · simp [hab, hab.asymm] at h1

theorem string_data_inj {a b : String} (h : a.data = b.data) : a = b := by
  cases a
  cases b
  simp_all

theorem strLt_irrefl (a : String) : ¬ strLt a a := by
  simp [strLt, lexLtB_irrefl]

theorem strLt_trans {a b c : String} (h1 : strLt a b) (h2 : strLt b c) : strLt a c :=
  lexLtB_trans a.data b.data c.data h1 h2

theorem strLt_asymm {a b : String} (h1 : strLt a b) : ¬ strLt b a :=
  fun h2 => strLt_irrefl a (strLt_trans h1 h2)

theorem strLt_trichotomy (a b : String) : strLt a b ∨ a = b ∨ strLt b a := by
  rcases lexLtB_trichotomy a.data b.data with h | h | h
  · exact Or.inl h
  · exact Or.inr (Or.inl (string_data_inj h))
  · exact Or.inr (Or.inr h)

theorem strLe_iff_not_strLt {a b : String} : strLe a b ↔ ¬ strLt b a := by
  unfold strLe strLt
  rw [lexLeB_eq_not_lexLtB]
  cases lexLtB b.data a.data <;> simp

theorem strLe_refl (a : String) : strLe a a := lexLeB_refl a.data

theorem strLe_of_strLt {a b : String} (h : strLt a b) : strLe a b :=
  strLe_iff_not_strLt.mpr (strLt_asymm h)

theorem strLe_of_eq {a b : String} (h : a = b) : strLe a b := h ▸ strLe_refl a

theorem strLe_total (a b : String) : strLe a b ∨ strLe b a := by
  rcases strLt_trichotomy a b with h | h | h
  · exact Or.inl (strLe_of_strLt h)
  · exact Or.inl (strLe_of_eq h)
  · exact Or.inr (strLe_of_strLt h)

theorem strLt_of_strLe_of_strLt {a b c : String} (h1 : strLe a b) (h2 : strLt b c) :
    strLt a c := by
  rcases strLt_trichotomy a b with h | h | h
  · exact strLt_trans h h2
  · exact h ▸ h2
  · exact absurd h (strLe_iff_not_strLt.mp h1)

theorem strLt_of_strLt_of_strLe {a b c : String} (h1 : strLt a b) (h2 : strLe b c) :
    strLt a c := by
  rcases strLt_trichotomy b c with h | h | h
  · exact strLt_trans h1 h
  · exact h ▸ h1
  · exact absurd h (strLe_iff_not_strLt.mp h2)

theorem strLe_trans {a b c : String} (h1 : strLe a b) (h2 : strLe b c) : strLe a c := by
  rw [strLe_iff_not_strLt] at h2 ⊢
  intro hca
  exact h2 (strLt_of_strLt_of_strLe hca h1)

/-! ### Lemmas about the latest-entry and latest-shift selection -/

/-- `a` weakly earlier than `b` under the `(shiftDate, createdAt)` ordering. -/
def entryLE (a b : StockEntry) : Prop :=
  strLt a.shiftDate b.shiftDate ∨ (a.shiftDate = b.shiftDate ∧ a.createdAt ≤ b.createdAt)

theorem not_entryLater_iff_entryLE {a b : StockEntry} : ¬ entryLater a b ↔ entryLE a b := by
  unfold entryLater entryLE
  constructor
  · intro h
    push_neg at h
    rcases strLt_trichotomy a.shiftDate b.shiftDate with hd | hd | hd
    · exact Or.inl hd
    · exact Or.inr ⟨hd, h.2 hd⟩
    · exact absurd hd h.1
  · rintro (hd | ⟨hd, hc⟩) (h | ⟨heq, hlt⟩)
    · exact strLt_asymm hd h
    · exact strLt_irrefl a.shiftDate (heq ▸ hd)
    · exact strLt_irrefl b.shiftDate (hd ▸ h)
    · exact Nat.not_le.mpr hlt hc

theorem entryLE_trans {a b c : StockEntry} (h1 : entryLE a b) (h2 : entryLE b c) :
    entryLE a c := by
  rcases h1 with hd | ⟨hd, hc⟩ <;> rcases h2 with hd2 | ⟨hd2, hc2⟩
  · exact Or.inl (strLt_trans hd hd2)
  · exact Or.inl (hd2 ▸ hd)
  · exact Or.inl (hd ▸ hd2)
  · exact Or.inr ⟨hd.trans hd2, hc.trans hc2⟩

theorem entryLater_irrefl (a : StockEntry) : ¬ entryLater a a :=
  not_entryLater_iff_entryLE.mpr (Or.inr ⟨rfl, Nat.le_refl _⟩)

theorem entryLater_asymm {a b : StockEntry} (h : entryLater a b) : ¬ entryLater b a := by
  rcases h with hd | ⟨hd, hc⟩
  · rintro (hd2 | ⟨hd2, hc2⟩)
    · exact strLt_asymm hd hd2
    · exact strLt_irrefl _ (hd2 ▸ hd)
  · rintro (hd2 | ⟨hd2, hc2⟩)
    · exact strLt_irrefl _ (hd ▸ hd2)
    · exact Nat.lt_asymm hc hc2

/-- The entry selected by `pickLatestEntry` is a member maximal with respect
to `entryLater` (no entry in the list is strictly later). -/
theorem pickLatestEntry_spec :
    ∀ l : List StockEntry,
      (l = [] ∧ pickLatestEntry l = none) ∨
        ∃ e, pickLatestEntry l = some e ∧ e ∈ l ∧ ∀ f ∈ l, ¬ entryLater f e
  | [] => Or.inl ⟨rfl, rfl⟩
  | e :: es => by
    rcases pickLatestEntry_spec es with ⟨hnil, hnone⟩ | ⟨m, hm, hmem, hmax⟩
    · subst hnil
      refine Or.inr ⟨e, ?_, List.mem_singleton.mpr rfl, ?_⟩
      · simp [pickLatestEntry, hnone]
      · intro f hf
        rw [List.mem_singleton.mp hf]
        exact entryLater_irrefl e
    · by_cases hle : entryLater m e
      · refine Or.inr ⟨m, ?_, List.mem_cons_of_mem _ hmem, ?_⟩
        · simp [pickLatestEntry, hm, hle]
        · intro f hf
          rcases List.mem_cons.mp hf with hfe | hfes
          · rw [hfe]
            exact entryLater_asymm hle
          · exact hmax f hfes
      · refine Or.inr ⟨e, ?_, List.mem_cons_self _ _, ?_⟩
        · simp [pickLatestEntry, hm, hle]
        · intro f hf
          rcases List.mem_cons.mp hf with hfe | hfes
          · rw [hfe]
            exact entryLater_irrefl e
          · rw [not_entryLater_iff_entryLE] at hle ⊢
            exact entryLE_trans (not_entryLater_iff_entryLE.mp (hmax f hfes)) hle

/-- The shift selected by `pickLatestShift` is a member with maximal
`updatedAt`. -/
theorem pickLatestShift_spec :
    ∀ l : List Shift,
      (l = [] ∧ pickLatestShift l = none) ∨
        ∃ x, pickLatestShift l = some x ∧ x ∈ l ∧ ∀ y ∈ l, y.updatedAt ≤ x.updatedAt
  | [] => Or.inl ⟨rfl, rfl⟩
  | s :: ss => by
    rcases pickLatestShift_spec ss with ⟨hnil, hnone⟩ | ⟨m, hm, hmem, hmax⟩
    · subst hnil
      refine Or.inr ⟨s, by simp [pickLatestShift, hnone], List.mem_singleton.mpr rfl, ?_⟩
      intro y hy
      rw [List.mem_singleton.mp hy]
    · by_cases hlt : s.updatedAt < m.updatedAt
      · refine Or.inr ⟨m, ?_, List.mem_cons_of_mem _ hmem, ?_⟩
        · simp [pickLatestShift, hm, hlt]
        · intro y hy
          rcases List.mem_cons.mp hy with hys | hys
          · rw [hys]; exact Nat.le_of_lt hlt
          · exact hmax y hys
      · refine Or.inr ⟨s, ?_, List.mem_cons_self _ _, ?_⟩
        · simp [pickLatestShift, hm, hlt]
        · intro y hy
          rcases List.mem_cons.mp hy with hys | hys
          · rw [hys]
          · exact (hmax y hys).trans (Nat.le_of_not_lt hlt)

/-! ### List utilities -/

theorem mem_firstDedup {α : Type} [DecidableEq α] :
    ∀ {l : List α} {a : α}, a ∈ firstDedup l ↔ a ∈ l
  | [], a => by simp [firstDedup]
  | b :: bs, a => by
    simp only [firstDedup, List.mem_cons, List.mem_filter, decide_eq_true_iff]
    by_cases hab : a = b
    · simp [hab]
    · simp only [hab, false_or]
      rw [mem_firstDedup (l := bs)]
      simp [hab]

theorem firstDedup_nodup {α : Type} [DecidableEq α] : ∀ l : List α, (firstDedup l).Nodup
  | [] => List.nodup_nil
  | b :: bs => by
    refine List.nodup_cons.mpr ⟨?_, List.Nodup.filter _ (firstDedup_nodup bs)⟩
    intro hmem
    rcases List.mem_filter.mp hmem with ⟨_, hb⟩
    exact absurd rfl (decide_eq_true_iff.mp hb)

theorem flatMap_eq_filter {α : Type} (l : List α) (f : α → List α) (q : α → Bool)
    (h : ∀ a ∈ l, f a = if q a then [a] else []) : l.flatMap f = l.filter q := by
  induction l with
  | nil => rfl
  | cons a as ih =>
    rw [List.flatMap_cons, h a (List.mem_cons_self _ _),
      ih (fun x hx => h x (List.mem_cons_of_mem _ hx))]
    by_cases hq : q a = true
    · simp [hq, List.filter_cons]
    · simp [Bool.eq_false_iff.mpr hq, List.filter_cons]

theorem flatMap_filter_of_nil {α β : Type} (l : List α) (f : α → List β) (P : α → Bool)
    (h : ∀ a ∈ l, P a = false → f a = []) : (l.filter P).flatMap f = l.flatMap f := by
  induction l with
  | nil => rfl
  | cons a as ih =>
    have ih2 := ih (fun x hx hPx => h x (List.mem_cons_of_mem _ hx) hPx)
    by_cases hP : P a = true
    · rw [List.filter_cons_of_pos hP, List.flatMap_cons, List.flatMap_cons, ih2]
    · have hP2 : P a = false := Bool.eq_false_iff.mpr hP
      rw [List.filter_cons_of_neg (by simp [hP2]), List.flatMap_cons,
        h a (List.mem_cons_self _ _) hP2, ih2, List.nil_append]

/-- Filtering a list whose key column is duplicate-free by a predicate that
pins the key returns the `find?` result. -/
theorem nodupkey_filter {α β : Type} [DecidableEq β] (key : α → β) :
    ∀ (l : List α), (l.map key).Nodup → ∀ (p : α → Bool) (k : β),
      (∀ x, p x = true → key x = k) → l.filter p = (l.find? p).toList
  | [], _, _, _, _ => rfl
  | a :: as, hnd, p, k, hp => by
    have hnd2 : (as.map key).Nodup := (List.nodup_cons.mp (by simpa using hnd)).2
    have hka : key a ∉ as.map key := (List.nodup_cons.mp (by simpa using hnd)).1
    by_cases ha : p a = true
    · rw [List.filter_cons_of_pos ha, List.find?_cons_of_pos _ ha]
      have : as.filter p = [] := by
        rw [List.filter_eq_nil_iff]
        intro x hx hpx
        exact hka ((hp x hpx).trans (hp a ha).symm ▸ List.mem_map_of_mem key hx)
      simp [this]
    · have ha2 : p a = false := Bool.eq_false_iff.mpr ha
      rw [List.filter_cons_of_neg (by simp [ha2]), List.find?_cons_of_neg _ (by simp [ha2])]
      exact nodupkey_filter key as hnd2 p k hp

/-! ### The dispensed-volume join under primary-key uniqueness -/

/-- When nozzle ids are duplicate-free (they are a primary key), the SQL join
rows of the dispensed-volume query are exactly the readings on a nozzle of
the tank dated on or after the cutoff, each counted once. -/
theorem dispensedRowsOf_eq_filter (readings : List NozzleReading) (nozzles : List Nozzle)
    (tid cutoff : String) (hnd : (nozzles.map (fun n => n.id)).Nodup) :
    dispensedRowsOf readings nozzles tid cutoff =
      readings.filter (fun r =>
        decide ((∃ n ∈ nozzles, n.id = r.nozzleId ∧ n.tankId = tid) ∧
          strLe cutoff r.shiftDate)) := by
  unfold dispensedRowsOf
  rw [flatMap_eq_filter _ _
    (fun r => decide (∃ n ∈ nozzles, n.id = r.nozzleId ∧ n.tankId = tid)) ?_]
  · rw [List.filter_filter]
    refine List.filter_congr ?_
    intro r _
    by_cases h1 : strLe cutoff r.shiftDate <;>
      by_cases h2 : ∃ n ∈ nozzles, n.id = r.nozzleId ∧ n.tankId = tid <;>
      simp [h1, h2]
  · intro r _
    rw [nodupkey_filter (fun n => n.id) nozzles hnd _ r.nozzleId
      (fun x hx => (decide_eq_true_iff.mp hx).1)]
    by_cases hex : ∃ n ∈ nozzles, n.id = r.nozzleId ∧ n.tankId = tid
    · obtain ⟨n, hn, hp⟩ := hex
      have hsome : (nozzles.find?
          (fun n => decide (n.id = r.nozzleId ∧ n.tankId = tid))).isSome = true := by
        rw [List.find?_isSome]
        exact ⟨n, hn, decide_eq_true_iff.mpr hp⟩
      obtain ⟨m, hm⟩ := Option.isSome_iff_exists.mp hsome
      rw [hm]
      have hex2 : ∃ n ∈ nozzles, n.id = r.nozzleId ∧ n.tankId = tid := ⟨n, hn, hp⟩
      simp [hex2]
    · have hnone : nozzles.find?
          (fun n => decide (n.id = r.nozzleId ∧ n.tankId = tid)) = none := by
        rw [List.find?_eq_none]
        intro x hx hpx
        exact hex ⟨x, hx, decide_eq_true_iff.mp hpx⟩
      rw [hnone]
      simp [hex]

/-! ### Characterizing the rows of `getTanksByRetailOutletId` -/

theorem mem_getTanks_iff {db : DB} {oid today : String} {row : TankWithStock} :
    row ∈ getTanksByRetailOutletId db oid today ↔
      ∃ t ∈ db.tanks, t.retailOutletId = oid ∧ t.isActive = true ∧
        ∃ p ∈ db.products, p.id = t.productId ∧ row = tankRowStock db today t p.name := by
  unfold getTanksByRetailOutletId
  rw [List.mem_map]
  constructor
  · rintro ⟨tp, htp, heq⟩
    rw [(List.perm_insertionSort tankNumberLE (tanksWithProduct db oid)).mem_iff] at htp
    obtain ⟨t, ht, hin⟩ := List.mem_flatMap.mp htp
    obtain ⟨htmem, hcond⟩ := List.mem_filter.mp ht
    obtain ⟨hc1, hc2⟩ := decide_eq_true_iff.mp hcond
    obtain ⟨p, hp, hpair⟩ := List.mem_map.mp hin
    obtain ⟨hpmem, hpcond⟩ := List.mem_filter.mp hp
    refine ⟨t, htmem, hc1, hc2, p, hpmem, decide_eq_true_iff.mp hpcond, ?_⟩
    rw [← heq, ← hpair]
  · rintro ⟨t, htmem, hc1, hc2, p, hpmem, hpid, heq⟩
    refine ⟨(t, p), ?_, heq.symm⟩
    rw [(List.perm_insertionSort tankNumberLE (tanksWithProduct db oid)).mem_iff]
    refine List.mem_flatMap.mpr ⟨t, List.mem_filter.mpr ⟨htmem, ?_⟩, ?_⟩
    · exact decide_eq_true_iff.mpr ⟨hc1, hc2⟩
    · exact List.mem_map_of_mem _ (List.mem_filter.mpr ⟨hpmem, decide_eq_true_iff.mpr hpid⟩)

/-- Full characterization of the per-tank stock computation: the latest
stock entry is selected by maximal `(shiftDate, createdAt)` (or zeros and the
`today` cutoff when there is none) and the current stock is the clamped
difference against the dispensed sum over the readings of the tank's nozzles
dated on or after the cutoff. -/
theorem tankCurrentStock_spec (db : DB) (tid today : String)
    (hnoz : (db.nozzles.map (fun n => n.id)).Nodup)
    (hdates : ∀ e ∈ db.stockEntries, e.shiftDate ≠ "") :
    ∃ cutoff opening receipt,
      ((db.stockEntries.filter (fun e => decide (e.tankId = tid)) = [] ∧
          cutoff = today ∧ opening = 0 ∧ receipt = 0) ∨
        (∃ e ∈ db.stockEntries.filter (fun e => decide (e.tankId = tid)),
          cutoff = e.shiftDate ∧ opening = e.openingStock ∧ receipt = e.receipt ∧
            ∀ f ∈ db.stockEntries.filter (fun e => decide (e.tankId = tid)),
              strLt f.shiftDate e.shiftDate ∨
                (f.shiftDate = e.shiftDate ∧ f.createdAt ≤ e.createdAt))) ∧
      tankCurrentStock db tid today = max 0 (opening + receipt -
        ((db.nozzleReadings.filter (fun r =>
            decide ((∃ n ∈ db.nozzles, n.id = r.nozzleId ∧ n.tankId = tid) ∧
              strLe cutoff r.shiftDate))).map
          (fun r => r.currentReading - r.previousReading - r.testing.getD 0)).sum) := by
  rcases pickLatestEntry_spec (db.stockEntries.filter (fun e => decide (e.tankId = tid)))
    with ⟨hnil, hnone⟩ | ⟨e, he, hmem, hmax⟩
  · refine ⟨today, 0, 0, Or.inl ⟨hnil, rfl, rfl, rfl⟩, ?_⟩
    have hlse : latestStockEntry db tid = none := hnone
    unfold tankCurrentStock
    rw [hlse]
    unfold dispensedSum dispensedRows
    rw [dispensedRowsOf_eq_filter _ _ _ _ hnoz]
    have hcut : cutoffDate db tid today = today := by
      unfold cutoffDate
      rw [hlse]
      rfl
    rw [hcut]
    rfl
  · have hdate : e.shiftDate ≠ "" := hdates e (List.mem_of_mem_filter hmem)
    refine ⟨e.shiftDate, e.openingStock, e.receipt,
      Or.inr ⟨e, hmem, rfl, rfl, rfl, ?_⟩, ?_⟩
    · intro f hf
      exact not_entryLater_iff_entryLE.mp (hmax f hf)
    · have hlse : latestStockEntry db tid = some e := he
      unfold tankCurrentStock
      rw [hlse]
      unfold dispensedSum dispensedRows
      rw [dispensedRowsOf_eq_filter _ _ _ _ hnoz]
      have hcut : cutoffDate db tid today = e.shiftDate := by
        unfold cutoffDate
        rw [hlse]
        simp [jsOrElse, hdate]
      rw [hcut]
      rfl

/-! ### Claim theorems: stock reconciliation -/

/-- C1: for every outlet and every active tank of that outlet, the stock
reconciliation reports `currentStock = max(0, openingStock + receipt − S)`
where `S` sums `(currentReading − previousReading − testing)` (missing
`testing` as zero) over exactly the readings on nozzles referencing the tank
with `shiftDate >= cutoff`; `openingStock`, `receipt` and the cutoff come
from the stock entry with greatest `shiftDate` (ties by latest creation
timestamp), or are zero with the current date as cutoff when the tank has no
stock entries.  Hypotheses: nozzle ids are duplicate-free (primary key) and
stock-entry dates are non-empty date strings. -/
theorem c1_currentStock_reconciliation (db : DB) (oid today : String)
    (hnoz : (db.nozzles.map (fun n => n.id)).Nodup)
    (hdates : ∀ e ∈ db.stockEntries, e.shiftDate ≠ "") :
    ∀ row ∈ getTanksByRetailOutletId db oid today,
      ∃ cutoff opening receipt,
        ((db.stockEntries.filter (fun e => decide (e.tankId = row.id)) = [] ∧
            cutoff = today ∧ opening = 0 ∧ receipt = 0) ∨
          (∃ e ∈ db.stockEntries.filter (fun e => decide (e.tankId = row.id)),
            cutoff = e.shiftDate ∧ opening = e.openingStock ∧ receipt = e.receipt ∧
              ∀ f ∈ db.stockEntries.filter (fun e => decide (e.tankId = row.id)),
                strLt f.shiftDate e.shiftDate ∨
                  (f.shiftDate = e.shiftDate ∧ f.createdAt ≤ e.createdAt))) ∧
        row.currentStock = max 0 (opening + receipt -
          ((db.nozzleReadings.filter (fun r =>
              decide ((∃ n ∈ db.nozzles, n.id = r.nozzleId ∧ n.tankId = row.id) ∧
                strLe cutoff r.shiftDate))).map
            (fun r => r.currentReading - r.previousReading - r.testing.getD 0)).sum) := by
  intro row hrow
  obtain ⟨t, htmem, hc1, hc2, p, hpmem, hpid, heq⟩ := mem_getTanks_iff.mp hrow
  subst heq
  simpa [tankRowStock] using tankCurrentStock_spec db t.id today hnoz hdates

/-- C2: the reported current stock is never negative, and whenever the
dispensed sum reaches or exceeds `openingStock + receipt` the result is
clamped to exactly 0. -/
theorem c2_currentStock_nonneg (db : DB) (oid today : String) :
    ∀ row ∈ getTanksByRetailOutletId db oid today,
      0 ≤ row.currentStock ∧
        (((latestStockEntry db row.id).map (fun e => e.openingStock)).getD 0 +
            ((latestStockEntry db row.id).map (fun e => e.receipt)).getD 0 ≤
            dispensedSum db row.id (cutoffDate db row.id today) →
          row.currentStock = 0) := by
  intro row hrow
  obtain ⟨t, _, _, _, p, _, _, heq⟩ := mem_getTanks_iff.mp hrow
  subst heq
  simp only [tankRowStock]
  refine ⟨le_max_left 0 _, ?_⟩
  intro hle
  simp only [tankCurrentStock]
  exact max_eq_left (sub_nonpos.mpr hle)

/-- C3: the reading filter is inclusive at the cutoff boundary — a reading
whose `shiftDate` equals the cutoff (the latest stock entry's date) is
counted in the dispensed sum, so recording it lowers (or keeps clamped) the
reported current stock. -/
theorem c3_inclusive_boundary (db : DB) (tid today : String) (r : NozzleReading)
    (n : Nozzle) (hnoz : (db.nozzles.map (fun n => n.id)).Nodup) (hn : n ∈ db.nozzles)
    (hid : n.id = r.nozzleId) (htank : n.tankId = tid)
    (hdate : r.shiftDate = cutoffDate db tid today) :
    dispensedSum { db with nozzleReadings := r :: db.nozzleReadings } tid
        (cutoffDate { db with nozzleReadings := r :: db.nozzleReadings } tid today) =
      (r.currentReading - r.previousReading - r.testing.getD 0) +
        dispensedSum db tid (cutoffDate db tid today) ∧
      (0 ≤ r.currentReading - r.previousReading - r.testing.getD 0 →
        tankCurrentStock { db with nozzleReadings := r :: db.nozzleReadings } tid today ≤
          tankCurrentStock db tid today) := by
  have hcut : cutoffDate { db with nozzleReadings := r :: db.nozzleReadings } tid today =
      cutoffDate db tid today := rfl
  have hd : dispensedSum { db with nozzleReadings := r :: db.nozzleReadings } tid
      (cutoffDate db tid today) =
      (r.currentReading - r.previousReading - r.testing.getD 0) +
        dispensedSum db tid (cutoffDate db tid today) := by
    unfold dispensedSum dispensedRows
    rw [show ({ db with nozzleReadings := r :: db.nozzleReadings } : DB).nozzleReadings =
      r :: db.nozzleReadings from rfl]
    rw [show ({ db with nozzleReadings := r :: db.nozzleReadings } : DB).nozzles =
      db.nozzles from rfl]
    rw [dispensedRowsOf_eq_filter _ _ _ _ hnoz, dispensedRowsOf_eq_filter _ _ _ _ hnoz]
    rw [List.filter_cons_of_pos ?_]
    · rw [List.map_cons, List.sum_cons]
      rfl
    · refine decide_eq_true_iff.mpr ⟨⟨n, hn, hid, htank⟩, ?_⟩
      rw [hdate]
      exact strLe_refl _
  refine ⟨by rw [hcut, hd], ?_⟩
  intro hvol
  have hopen : latestStockEntry { db with nozzleReadings := r :: db.nozzleReadings } tid =
      latestStockEntry db tid := rfl
  simp only [tankCurrentStock, hopen, hcut, hd]
  apply max_le_max le_rfl
  exact sub_le_sub_left (le_add_of_nonneg_left hvol) _

/-- C7: a tank that does not exist or is inactive yields the `NotFound`
outcome (no row, `none`), while an existing active tank of the outlet with a
product but no stock entries and no readings on its nozzles yields the valid
result `some 0`, not an error. -/
theorem c7_notfound_and_zero_state (db : DB) (oid today tid : String) :
    (((∀ t ∈ db.tanks, t.id ≠ tid) ∨ (∀ t ∈ db.tanks, t.id = tid → t.isActive = false)) →
      computeCurrentStock db oid today tid = none) ∧
    (∀ t ∈ db.tanks, t.id = tid → t.retailOutletId = oid → t.isActive = true →
      (∃ p ∈ db.products, p.id = t.productId) →
      db.stockEntries.filter (fun e => decide (e.tankId = tid)) = [] →
      (∀ r ∈ db.nozzleReadings, ∀ n ∈ db.nozzles, n.id = r.nozzleId → n.tankId ≠ tid) →
      computeCurrentStock db oid today tid = some 0) := by
  constructor
  · intro hyp
    unfold computeCurrentStock
    rw [List.find?_eq_none.mpr ?_]
    · rfl
    · intro row hrow
      obtain ⟨t, htmem, hc1, hc2, p, hpmem, hpid, heq⟩ := mem_getTanks_iff.mp hrow
      subst heq
      simp only [tankRowStock, decide_eq_true_iff]
      rcases hyp with h | h
      · exact h t htmem
      · intro heq2
        rw [h t htmem heq2] at hc2
        cases hc2
  · intro t htmem hidt houtlet hactive ⟨p, hpmem, hpid⟩ hent hreads
    have hzero : tankCurrentStock db tid today = 0 := by
      have hlse : latestStockEntry db tid = none := by
        unfold latestStockEntry
        rw [hent]
        rfl
      have hrows : dispensedRows db tid (cutoffDate db tid today) = [] := by
        unfold dispensedRows dispensedRowsOf
        rw [show db.nozzleReadings.flatMap (fun r =>
            (db.nozzles.filter
              (fun n => decide (n.id = r.nozzleId ∧ n.tankId = tid))).map (fun _ => r)) =
            ([] : List NozzleReading) from ?_]
        · rfl
        · rw [List.flatMap_eq_nil_iff]
          intro r hr
          rw [List.map_eq_nil_iff, List.filter_eq_nil_iff]
          intro n hn hcond
          obtain ⟨hid2, htank2⟩ := decide_eq_true_iff.mp hcond
          exact hreads r hr n hn hid2 htank2
      unfold tankCurrentStock
      rw [hlse]
      unfold dispensedSum
      rw [hrows]
      rfl
    have hmem0 : tankRowStock db today t p.name ∈ getTanksByRetailOutletId db oid today :=
      mem_getTanks_iff.mpr ⟨t, htmem, houtlet, hactive, p, hpmem, hpid, rfl⟩
    have hsome : ((getTanksByRetailOutletId db oid today).find?
        (fun row => decide (row.id = tid))).isSome = true := by
      rw [List.find?_isSome]
      exact ⟨tankRowStock db today t p.name, hmem0, by simp [tankRowStock, hidt]⟩
    obtain ⟨row', hrow'⟩ := Option.isSome_iff_exists.mp hsome
    have hrid : row'.id = tid := by
      have := List.find?_some hrow'
      exact decide_eq_true_iff.mp this
    obtain ⟨t', _, _, _, p', _, _, heq'⟩ :=
      mem_getTanks_iff.mp (List.mem_of_find?_eq_some hrow')
    unfold computeCurrentStock
    rw [hrow']
    have : row'.currentStock = 0 := by
      rw [heq'] at hrid ⊢
      simp only [tankRowStock] at hrid ⊢
      rw [hrid, hzero]
    rw [Option.map_some', this]

/-! ### Concrete stores used by the witnesses -/

/-- First reading of the spec's reconciliation scenario (dispenses 200 on the
stock entry's own date). -/
def rMain1 : NozzleReading :=
  { id := "R1", retailOutletId := "A", nozzleId := "N1", attendantId := "S1",
    shiftType := "morning", shiftDate := "2024-01-01", previousReading := 0,
    currentReading := 200, testing := some 0, totalSale := 200, cashSales := 200,
    creditSales := 0, upiSales := 0, cardSales := 0, createdAt := 10 }

/-- Second reading of the scenario (dispenses 100 the next day). -/
def rMain2 : NozzleReading :=
  { id := "R2", retailOutletId := "A", nozzleId := "N1", attendantId := "S1",
    shiftType := "evening", shiftDate := "2024-01-02", previousReading := 200,
    currentReading := 300, testing := none, totalSale := 100, cashSales := 0,
    creditSales := 0, upiSales := 100, cardSales := 0, createdAt := 20 }

/-- The nozzle of the scenario tank. -/
def nzMain : Nozzle :=
  { id := "N1", dispensingUnitId := "D1", tankId := "T1", nozzleNumber := 1,
    isActive := true }

/-- The scenario tank. -/
def tkMain : Tank :=
  { id := "T1", retailOutletId := "A", productId := "P1", tankNumber := "1",
    isActive := true }

/-- The scenario product. -/
def prMain : Product :=
  { id := "P1", retailOutletId := "A", name := "petrol", isActive := true }

/-- The scenario attendant. -/
def stMain : Staff :=
  { id := "S1", retailOutletId := "A", name := "asha", role := "attendant",
    isActive := true }

/-- The spec's scenario store: one stock entry
`{shiftDate 2024-01-01, openingStock 1000, receipt 500}` and readings dated
2024-01-01 and 2024-01-02 dispensing 200 and 100. -/
def dbMain : DB :=
  { tanks := [tkMain]
    products := [prMain]
    nozzles := [nzMain]
    staff := [stMain]
    nozzleReadings := [rMain1, rMain2]
    stockEntries :=
      [{ id := "E1", retailOutletId := "A", tankId := "T1", managerId := "M1",
         shiftType := "morning", shiftDate := "2024-01-01", openingStock := 1000,
         receipt := 500, invoiceValue := 0, createdAt := 5 }]
    shiftSales := []
    shifts := [] }

/-- The row the engine reports for the scenario tank. -/
def c1row : TankWithStock :=
  { id := "T1", retailOutletId := "A", productId := "P1", tankNumber := "1",
    isActive := true, productName := "petrol", currentStock := 1200 }

/-- The clamp scenario: same stock entry (1500 available) but a reading
dispensing 2000. -/
def dbClamp : DB :=
  { dbMain with
    nozzleReadings :=
      [{ id := "R3", retailOutletId := "A", nozzleId := "N1", attendantId := "S1",
         shiftType := "morning", shiftDate := "2024-01-02", previousReading := 0,
         currentReading := 2000, testing := none, totalSale := 2000, cashSales := 2000,
         creditSales := 0, upiSales := 0, cardSales := 0, createdAt := 10 }] }

/-- The clamped row: stock 0, not −500. -/
def c2row : TankWithStock :=
  { id := "T1", retailOutletId := "A", productId := "P1", tankNumber := "1",
    isActive := true, productName := "petrol", currentStock := 0 }

/-- `dbMain` without its first reading (used to show that prepending the
boundary-dated reading deducts its volume). -/
def dbBoundary : DB := { dbMain with nozzleReadings := [rMain2] }

/-- The zero-state store: an active tank with a product but no stock entries
and no readings. -/
def dbZero : DB :=
  { tanks := [tkMain]
    products := [prMain]
    nozzles := [nzMain]
    staff := []
    nozzleReadings := []
    stockEntries := []
    shiftSales := []
    shifts := [] }

/-! ### Witnesses for the stock claims -/

/-- C1 witness: the spec scenario — the theorem instantiated at `dbMain`
reports 1200 for tank T1. -/
theorem c1_witness :
    (c1row ∈ getTanksByRetailOutletId dbMain "A" "2024-01-03" ∧
      computeCurrentStock dbMain "A" "2024-01-03" "T1" = some 1200) ∧
    ∃ cutoff opening receipt,
      ((dbMain.stockEntries.filter (fun e => decide (e.tankId = c1row.id)) = [] ∧
          cutoff = "2024-01-03" ∧ opening = 0 ∧ receipt = 0) ∨
        (∃ e ∈ dbMain.stockEntries.filter (fun e => decide (e.tankId = c1row.id)),
          cutoff = e.shiftDate ∧ opening = e.openingStock ∧ receipt = e.receipt ∧
            ∀ f ∈ dbMain.stockEntries.filter (fun e => decide (e.tankId = c1row.id)),
              strLt f.shiftDate e.shiftDate ∨
                (f.shiftDate = e.shiftDate ∧ f.createdAt ≤ e.createdAt))) ∧
      c1row.currentStock = max 0 (opening + receipt -
        ((dbMain.nozzleReadings.filter (fun r =>
            decide ((∃ n ∈ dbMain.nozzles, n.id = r.nozzleId ∧ n.tankId = c1row.id) ∧
              strLe cutoff r.shiftDate))).map
          (fun r => r.currentReading - r.previousReading - r.testing.getD 0)).sum) :=
  ⟨⟨by decide, by decide⟩,
    c1_currentStock_reconciliation dbMain "A" "2024-01-03" (by decide) (by decide)
      c1row (by decide)⟩

/-- C2 witness: the clamp scenario — dispensed 2000 against 1500 available
yields 0, not −500. -/
theorem c2_witness :
    c2row ∈ getTanksByRetailOutletId dbClamp "A" "2024-01-03" ∧
      0 ≤ c2row.currentStock ∧ c2row.currentStock = 0 := by
  have h := c2_currentStock_nonneg dbClamp "A" "2024-01-03" c2row (by decide)
  exact ⟨by decide, h.1, h.2 (by decide)⟩

/-- C3 witness: prepending the reading dated exactly on the stock entry's
date (the cutoff) deducts its 200 volume and lowers the reported stock. -/
theorem c3_witness :
    dispensedSum { dbBoundary with nozzleReadings := rMain1 :: dbBoundary.nozzleReadings }
        "T1" (cutoffDate { dbBoundary with
          nozzleReadings := rMain1 :: dbBoundary.nozzleReadings } "T1" "2024-01-03") =
      (rMain1.currentReading - rMain1.previousReading - rMain1.testing.getD 0) +
        dispensedSum dbBoundary "T1" (cutoffDate dbBoundary "T1" "2024-01-03") ∧
      tankCurrentStock { dbBoundary with
          nozzleReadings := rMain1 :: dbBoundary.nozzleReadings } "T1" "2024-01-03" ≤
        tankCurrentStock dbBoundary "T1" "2024-01-03" := by
  have h := c3_inclusive_boundary dbBoundary "T1" "2024-01-03" rMain1 nzMain
    (by decide) (by decide) (by decide) (by decide) (by decide)
  exact ⟨h.1, h.2 (by decide)⟩

/-- C7 witness: a missing tank id yields `none` (`NotFound`), and the
zero-state tank yields `some 0`. -/
theorem c7_witness :
    computeCurrentStock dbMain "A" "2024-01-03" "TX" = none ∧
      computeCurrentStock dbZero "A" "2024-01-03" "T1" = some 0 :=
  ⟨(c7_notfound_and_zero_state dbMain "A" "2024-01-03" "TX").1 (Or.inl (by decide)),
    (c7_notfound_and_zero_state dbZero "A" "2024-01-03" "T1").2 tkMain (by decide)
      (by decide) (by decide) (by decide) (by decide) (by decide) (by decide)⟩

/-! ### Claim theorems: sales statistics and inserts -/

/-- C5: `getShiftSalesStats` returns the sum of `totalSales` over the
outlet's records dated on or after the week cutoff as `weeklySales`, the same
sum over the month cutoff as `monthlySales`, the per-method sums over the
month cutoff (the same window as monthly, not weekly) as the breakdown, and
all zeros — never an error — when the outlet has no records. -/
theorem c5_stats_windows (db : DB) (oid : String) (weekAgo monthAgo : Nat) :
    (getShiftSalesStats db oid weekAgo monthAgo).weeklySales =
      (((db.shiftSales.filter (fun s => decide (s.retailOutletId = oid))).filter
          (fun s => decide (weekAgo ≤ s.shiftDate))).map (fun s => s.totalSales)).sum ∧
    (getShiftSalesStats db oid weekAgo monthAgo).monthlySales =
      (((db.shiftSales.filter (fun s => decide (s.retailOutletId = oid))).filter
          (fun s => decide (monthAgo ≤ s.shiftDate))).map (fun s => s.totalSales)).sum ∧
    (getShiftSalesStats db oid weekAgo monthAgo).paymentMethodBreakdown =
      { cash :=
          (((db.shiftSales.filter (fun s => decide (s.retailOutletId = oid))).filter
              (fun s => decide (monthAgo ≤ s.shiftDate))).map (fun s => s.cashSales)).sum
        credit :=
          (((db.shiftSales.filter (fun s => decide (s.retailOutletId = oid))).filter
              (fun s => decide (monthAgo ≤ s.shiftDate))).map (fun s => s.creditSales)).sum
        upi :=
          (((db.shiftSales.filter (fun s => decide (s.retailOutletId = oid))).filter
              (fun s => decide (monthAgo ≤ s.shiftDate))).map (fun s => s.upiSales)).sum
        card :=
          (((db.shiftSales.filter (fun s => decide (s.retailOutletId = oid))).filter
              (fun s => decide (monthAgo ≤ s.shiftDate))).map (fun s => s.cardSales)).sum } ∧
    (db.shiftSales.filter (fun s => decide (s.retailOutletId = oid)) = [] →
      getShiftSalesStats db oid weekAgo monthAgo =
        { weeklySales := 0, monthlySales := 0,
          paymentMethodBreakdown := { cash := 0, credit := 0, upi := 0, card := 0 } }) := by
  have key : ∀ (cut : Nat) (f : ShiftSalesRow → Int),
      ((db.shiftSales.filter
          (fun s => decide (s.retailOutletId = oid ∧ cut ≤ s.shiftDate))).map f).sum =
        (((db.shiftSales.filter (fun s => decide (s.retailOutletId = oid))).filter
            (fun s => decide (cut ≤ s.shiftDate))).map f).sum := by
    intro cut f
    rw [List.filter_filter]
    refine congrArg _ (congrArg _ (List.filter_congr ?_))
    intro x _
    rw [Bool.decide_and, Bool.and_comm]
  refine ⟨key weekAgo _, key monthAgo _, ?_, ?_⟩
  · simp only [getShiftSalesStats]
    rw [PaymentBreakdown.mk.injEq]
    exact ⟨key monthAgo _, key monthAgo _, key monthAgo _, key monthAgo _⟩
  · intro h
    have hempty : ∀ cut : Nat,
        db.shiftSales.filter
          (fun s => decide (s.retailOutletId = oid ∧ cut ≤ s.shiftDate)) = [] := by
      intro cut
      rw [List.filter_eq_nil_iff]
      intro s hs hdec
      obtain ⟨h1, _⟩ := decide_eq_true_iff.mp hdec
      have hmem : s ∈ db.shiftSales.filter (fun s => decide (s.retailOutletId = oid)) :=
        List.mem_filter.mpr ⟨hs, decide_eq_true_iff.mpr h1⟩
      rw [h] at hmem
      cases hmem
    have hz : ∀ (cut : Nat) (f : ShiftSalesRow → Int),
        ((db.shiftSales.filter
            (fun s => decide (s.retailOutletId = oid ∧ cut ≤ s.shiftDate))).map f).sum = 0 := by
      intro cut f
      rw [hempty cut]
      rfl
    simp only [getShiftSalesStats]
    rw [SalesStats.mk.injEq, PaymentBreakdown.mk.injEq]
    exact ⟨hz _ _, hz _ _, hz _ _, hz _ _, hz _ _, hz _ _⟩

/-- C10: `createShiftSales` stores `totalSales` recomputed as the sum of the
four supplied payment fields (absent fields as 0), ignoring any
caller-supplied `totalSales`, whereas `createNozzleReading` stores the
caller's `totalSale` unchanged. -/
theorem c10_total_recomputed (s : InsertShiftSales) (newId : String)
    (r : InsertNozzleReading) (rid : String) (now : Nat) :
    (createShiftSales s newId).totalSales =
      s.cashSales.getD 0 + s.creditSales.getD 0 + s.upiSales.getD 0 + s.cardSales.getD 0 ∧
    (∀ v : Option Int,
      (createShiftSales { s with totalSales := v } newId).totalSales =
        (createShiftSales s newId).totalSales) ∧
    (createNozzleReading r rid now).totalSale = r.totalSale :=
  ⟨rfl, fun _ => rfl, rfl⟩

/-! ### Claim theorems: shift-sales summaries ordering and truncation -/

instance : IsTotal GroupRow groupLE := ⟨by
  intro a b
  rcases strLt_trichotomy a.key.shiftDate b.key.shiftDate with h | h | h
  · exact Or.inr (Or.inl h)
  · rcases strLe_total a.key.shiftType b.key.shiftType with ht | ht
    · exact Or.inl (Or.inr ⟨h, ht⟩)
    · exact Or.inr (Or.inr ⟨h.symm, ht⟩)
  · exact Or.inl (Or.inl h)⟩

instance : IsTrans GroupRow groupLE := ⟨by
  intro a b c hab hbc
  rcases hab with h1 | ⟨h1, ht1⟩ <;> rcases hbc with h2 | ⟨h2, ht2⟩
  · exact Or.inl (strLt_trans h2 h1)
  · exact Or.inl (h2 ▸ h1)
  · exact Or.inl (h1.symm ▸ h2)
  · exact Or.inr ⟨h1.trans h2, strLe_trans ht1 ht2⟩⟩

/-- C9: the produced summary sequence is the grouped rows sorted by
`shiftDate` descending then `shiftType`, truncated to `limit` groups (the
default limit is 10), and every summary carries the synthesized 06:00–18:00
display window on its shift date. -/
theorem c9_ordering_truncation_window (db : DB) (oid : String) (limit : Nat) :
    getShiftSalesByRetailOutletId db oid limit =
      ((shiftGroups db oid).take limit).map (mkSummary oid) ∧
    getShiftSalesByRetailOutletId db oid =
      ((shiftGroups db oid).take 10).map (mkSummary oid) ∧
    (getShiftSalesByRetailOutletId db oid limit).length ≤ limit ∧
    List.Pairwise groupLE (shiftGroups db oid) ∧
    ∀ s ∈ getShiftSalesByRetailOutletId db oid limit, ∃ d,
      s.shiftDate = d ++ "T00:00:00" ∧ s.startTime = d ++ "T06:00:00" ∧
        s.endTime = d ++ "T18:00:00" := by
  refine ⟨rfl, rfl, ?_, ?_, ?_⟩
  · unfold getShiftSalesByRetailOutletId
    rw [List.length_map]
    exact List.length_take_le _ _
  · unfold shiftGroups shiftGroupsOfRows
    exact List.sorted_insertionSort groupLE _
  · intro s hs
    obtain ⟨g, _, heq⟩ := List.mem_map.mp hs
    exact ⟨g.key.shiftDate, by rw [← heq]; rfl, by rw [← heq]; rfl, by rw [← heq]; rfl⟩

/-- A store whose only persisted shift-sales record belongs to another
outlet. -/
def dbStats : DB :=
  { dbMain with
    shiftSales :=
      [{ id := "SS1", retailOutletId := "B", staffId := "S1", shiftDate := 90,
         shiftType := "morning", cashSales := 10, creditSales := 0, upiSales := 0,
         cardSales := 0, totalSales := 10 }] }

/-- C5 witness: an outlet with zero shift-sales records gets all aggregates
equal to 0, not an error. -/
theorem c5_witness :
    getShiftSalesStats dbStats "A" 100 50 =
      { weeklySales := 0, monthlySales := 0,
        paymentMethodBreakdown := { cash := 0, credit := 0, upi := 0, card := 0 } } :=
  (c5_stats_windows dbStats "A" 100 50).2.2.2 (by decide)

/-- The first summary produced for `dbMain` (latest shift date first). -/
def c9sum : ShiftSalesSummary :=
  { id := "2024-01-02-evening-S1", retailOutletId := "A", staffId := "S1",
    staffName := "asha", shiftDate := "2024-01-02T00:00:00", shiftType := "evening",
    startTime := "2024-01-02T06:00:00", endTime := "2024-01-02T18:00:00",
    cashSales := 0, creditSales := 0, upiSales := 100, cardSales := 0,
    totalSales := 100, notes := "" }

/-- C9 witness: on the scenario store with limit 2 the output is within the
limit and the concrete first summary carries the 06:00–18:00 window. -/
theorem c9_witness :
    c9sum ∈ getShiftSalesByRetailOutletId dbMain "A" 2 ∧
      (∃ d, c9sum.shiftDate = d ++ "T00:00:00" ∧ c9sum.startTime = d ++ "T06:00:00" ∧
        c9sum.endTime = d ++ "T18:00:00") ∧
      (getShiftSalesByRetailOutletId dbMain "A" 2).length ≤ 2 := by
  have h := c9_ordering_truncation_window dbMain "A" 2
  exact ⟨by decide, h.2.2.2.2 c9sum (by decide), h.2.2.1⟩

/-! ### The reading–staff join under primary-key uniqueness -/

theorem flatMap_congr {α β : Type} {l : List α} {f g : α → List β}
    (h : ∀ a ∈ l, f a = g a) : l.flatMap f = l.flatMap g := by
  induction l with
  | nil => rfl
  | cons a as ih =>
    rw [List.flatMap_cons, List.flatMap_cons, h a (List.mem_cons_self _ _),
      ih (fun x hx => h x (List.mem_cons_of_mem _ hx))]

theorem flatMap_eq_map {α β : Type} (l : List α) (f : α → List β) (g : α → β)
    (h : ∀ a ∈ l, f a = [g a]) : l.flatMap f = l.map g := by
  induction l with
  | nil => rfl
  | cons a as ih =>
    rw [List.flatMap_cons, h a (List.mem_cons_self _ _),
      ih (fun x hx => h x (List.mem_cons_of_mem _ hx)), List.map_cons,
      List.singleton_append]

/-- Fallback row used only to name the staff member found by the join. -/
def defaultStaff : Staff :=
  { id := "", retailOutletId := "", name := "", role := "", isActive := false }

/-- The unique staff row with the given id (the join partner). -/
def theStaff (db : DB) (aid : String) : Staff :=
  (db.staff.find? (fun s => decide (s.id = aid))).getD defaultStaff

/-- Under staff-id uniqueness and referential integrity of `attendantId`, the
reading–staff join pairs each outlet reading with its unique staff row. -/
theorem readingStaffRows_eq_map (db : DB) (oid : String)
    (hnd : (db.staff.map (fun s => s.id)).Nodup)
    (hcov : ∀ r ∈ db.nozzleReadings, r.retailOutletId = oid →
      ∃ s ∈ db.staff, s.id = r.attendantId) :
    readingStaffRows db oid =
      (db.nozzleReadings.filter (fun r => decide (r.retailOutletId = oid))).map
        (fun r => (r, theStaff db r.attendantId)) := by
  unfold readingStaffRows
  refine flatMap_eq_map _ _ _ ?_
  intro r hr
  obtain ⟨hrm, hro⟩ := List.mem_filter.mp hr
  obtain ⟨s, hs, hsid⟩ := hcov r hrm (decide_eq_true_iff.mp hro)
  rw [nodupkey_filter (fun s => s.id) db.staff hnd _ r.attendantId
    (fun x hx => decide_eq_true_iff.mp hx)]
  have hsome : (db.staff.find? (fun x => decide (x.id = r.attendantId))).isSome = true := by
    rw [List.find?_isSome]
    exact ⟨s, hs, decide_eq_true_iff.mpr hsid⟩
  obtain ⟨m, hm⟩ := Option.isSome_iff_exists.mp hsome
  unfold theStaff
  rw [hm]
  rfl

/-- Every key occurring in the join rows carries the name of the unique
staff row of its `attendantId`. -/
theorem key_staffName (db : DB) (oid : String)
    (hnd : (db.staff.map (fun s => s.id)).Nodup)
    (hcov : ∀ r ∈ db.nozzleReadings, r.retailOutletId = oid →
      ∃ s ∈ db.staff, s.id = r.attendantId)
    {k : ShiftKey} (hk : k ∈ (readingStaffRows db oid).map rowKey) :
    k.staffName = (theStaff db k.attendantId).name := by
  rw [readingStaffRows_eq_map db oid hnd hcov, List.map_map] at hk
  obtain ⟨r, _, heq⟩ := List.mem_map.mp hk
  rw [← heq]
  rfl

/-- The five group sums over the joined rows coincide with the plain sums
over the outlet readings sharing the `(shiftDate, shiftType, attendantId)`
triple. -/
theorem group_sums (db : DB) (oid : String)
    (hnd : (db.staff.map (fun s => s.id)).Nodup)
    (hcov : ∀ r ∈ db.nozzleReadings, r.retailOutletId = oid →
      ∃ s ∈ db.staff, s.id = r.attendantId)
    {k : ShiftKey} (hk : k ∈ (readingStaffRows db oid).map rowKey)
    (f : NozzleReading → Int) :
    (((readingStaffRows db oid).filter (fun x => decide (rowKey x = k))).map
        (fun x => f x.1)).sum =
      ((db.nozzleReadings.filter (fun r =>
          decide (r.retailOutletId = oid ∧ r.shiftDate = k.shiftDate ∧
            r.shiftType = k.shiftType ∧ r.attendantId = k.attendantId))).map f).sum := by
  have hname := key_staffName db oid hnd hcov hk
  rw [readingStaffRows_eq_map db oid hnd hcov]
  rw [List.filter_map, List.map_map]
  have hright : db.nozzleReadings.filter (fun r =>
      decide (r.retailOutletId = oid ∧ r.shiftDate = k.shiftDate ∧
        r.shiftType = k.shiftType ∧ r.attendantId = k.attendantId)) =
      (db.nozzleReadings.filter (fun r => decide (r.retailOutletId = oid))).filter
        (fun r => decide (r.shiftDate = k.shiftDate ∧ r.shiftType = k.shiftType ∧
          r.attendantId = k.attendantId)) := by
    rw [List.filter_filter]
    refine List.filter_congr ?_
    intro r _
    by_cases h1 : r.retailOutletId = oid <;> by_cases h2 : r.shiftDate = k.shiftDate <;>
      by_cases h3 : r.shiftType = k.shiftType <;>
      by_cases h4 : r.attendantId = k.attendantId <;> simp [h1, h2, h3, h4]
  rw [hright]
  have hfilters : (db.nozzleReadings.filter
      (fun r => decide (r.retailOutletId = oid))).filter
        ((fun x => decide (rowKey x = k)) ∘ (fun r => (r, theStaff db r.attendantId))) =
      (db.nozzleReadings.filter (fun r => decide (r.retailOutletId = oid))).filter
        (fun r => decide (r.shiftDate = k.shiftDate ∧ r.shiftType = k.shiftType ∧
          r.attendantId = k.attendantId)) := by
    refine List.filter_congr ?_
    intro r _
    refine decide_eq_decide.mpr ?_
    unfold rowKey
    constructor
    · intro h
      obtain ⟨h1, h2, h3, _⟩ := ShiftKey.mk.injEq _ _ _ _ _ _ _ _ ▸ h
      exact ⟨h1, h2, h3⟩
    · rintro ⟨h1, h2, h3⟩
      cases k
      simp only [ShiftKey.mk.injEq]
      simp only at hname h1 h2 h3
      exact ⟨h1, h2, h3, by rw [h3, hname]⟩
  rw [hfilters]
  rfl

/-! ### Claim theorem: the shift-sales grouping is a partition with exact
sums -/

/-- C4: `getShiftSalesByRetailOutletId` groups the outlet's readings by
`(shiftDate, shiftType, attendantId)`: the produced groups have pairwise
distinct triples, every outlet reading falls in some group, and each group's
five totals are exactly the sums of the corresponding per-reading fields over
the readings sharing its triple.  Hypotheses: staff ids are duplicate-free
(primary key) and every outlet reading's `attendantId` references an existing
staff row (foreign key), since the SQL inner join drops orphaned readings. -/
theorem c4_grouping_partition (db : DB) (oid : String)
    (hnd : (db.staff.map (fun s => s.id)).Nodup)
    (hcov : ∀ r ∈ db.nozzleReadings, r.retailOutletId = oid →
      ∃ s ∈ db.staff, s.id = r.attendantId) :
    ((shiftGroups db oid).map
        (fun g => (g.key.shiftDate, g.key.shiftType, g.key.attendantId))).Nodup ∧
    (∀ r ∈ db.nozzleReadings, r.retailOutletId = oid →
      ∃ g ∈ shiftGroups db oid, g.key.shiftDate = r.shiftDate ∧
        g.key.shiftType = r.shiftType ∧ g.key.attendantId = r.attendantId) ∧
    (∀ g ∈ shiftGroups db oid,
      g.totalCashSales = ((db.nozzleReadings.filter (fun r =>
          decide (r.retailOutletId = oid ∧ r.shiftDate = g.key.shiftDate ∧
            r.shiftType = g.key.shiftType ∧ r.attendantId = g.key.attendantId))).map
        (fun r => r.cashSales)).sum ∧
      g.totalCreditSales = ((db.nozzleReadings.filter (fun r =>
          decide (r.retailOutletId = oid ∧ r.shiftDate = g.key.shiftDate ∧
            r.shiftType = g.key.shiftType ∧ r.attendantId = g.key.attendantId))).map
        (fun r => r.creditSales)).sum ∧
      g.totalUpiSales = ((db.nozzleReadings.filter (fun r =>
          decide (r.retailOutletId = oid ∧ r.shiftDate = g.key.shiftDate ∧
            r.shiftType = g.key.shiftType ∧ r.attendantId = g.key.attendantId))).map
        (fun r => r.upiSales)).sum ∧
      g.totalCardSales = ((db.nozzleReadings.filter (fun r =>
          decide (r.retailOutletId = oid ∧ r.shiftDate = g.key.shiftDate ∧
            r.shiftType = g.key.shiftType ∧ r.attendantId = g.key.attendantId))).map
        (fun r => r.cardSales)).sum ∧
      g.totalSalesSum = ((db.nozzleReadings.filter (fun r =>
          decide (r.retailOutletId = oid ∧ r.shiftDate = g.key.shiftDate ∧
            r.shiftType = g.key.shiftType ∧ r.attendantId = g.key.attendantId))).map
        (fun r => r.totalSale)).sum) := by
  have hperm : List.Perm (shiftGroups db oid)
      ((firstDedup ((readingStaffRows db oid).map rowKey)).map
        (groupFor (readingStaffRows db oid))) := by
    unfold shiftGroups shiftGroupsOfRows
    exact List.perm_insertionSort groupLE _
  refine ⟨?_, ?_, ?_⟩
  · rw [(hperm.map (fun g => (g.key.shiftDate, g.key.shiftType, g.key.attendantId))).nodup_iff]
    rw [List.map_map]
    refine List.Nodup.map_on ?_ (firstDedup_nodup _)
    intro k1 hk1 k2 hk2 htriple
    have hn1 := key_staffName db oid hnd hcov (mem_firstDedup.mp hk1)
    have hn2 := key_staffName db oid hnd hcov (mem_firstDedup.mp hk2)
    have htriple2 : (k1.shiftDate, k1.shiftType, k1.attendantId) =
        (k2.shiftDate, k2.shiftType, k2.attendantId) := htriple
    rw [Prod.mk.injEq, Prod.mk.injEq] at htriple2
    obtain ⟨hd, ht, ha⟩ := htriple2
    cases k1
    cases k2
    simp only at hd ht ha hn1 hn2
    simp only [ShiftKey.mk.injEq]
    exact ⟨hd, ht, ha, by rw [hn1, hn2, ha]⟩
  · intro r hr hro
    have hrmem : r ∈ db.nozzleReadings.filter
        (fun r => decide (r.retailOutletId = oid)) :=
      List.mem_filter.mpr ⟨hr, decide_eq_true_iff.mpr hro⟩
    have hpair : (r, theStaff db r.attendantId) ∈ readingStaffRows db oid := by
      rw [readingStaffRows_eq_map db oid hnd hcov]
      exact List.mem_map_of_mem _ hrmem
    have hkey : rowKey (r, theStaff db r.attendantId) ∈
        (readingStaffRows db oid).map rowKey := List.mem_map_of_mem _ hpair
    have hded : rowKey (r, theStaff db r.attendantId) ∈
        firstDedup ((readingStaffRows db oid).map rowKey) := mem_firstDedup.mpr hkey
    refine ⟨groupFor (readingStaffRows db oid) (rowKey (r, theStaff db r.attendantId)),
      hperm.mem_iff.mpr (List.mem_map_of_mem _ hded), rfl, rfl, rfl⟩
  · intro g hg
    obtain ⟨k, hkded, hgeq⟩ := List.mem_map.mp (hperm.mem_iff.mp hg)
    have hk : k ∈ (readingStaffRows db oid).map rowKey := mem_firstDedup.mp hkded
    have hgkey : g.key = k := by rw [← hgeq]; rfl
    subst hgeq
    rw [hgkey]
    exact ⟨group_sums db oid hnd hcov hk _, group_sums db oid hnd hcov hk _,
      group_sums db oid hnd hcov hk _, group_sums db oid hnd hcov hk _,
      group_sums db oid hnd hcov hk _⟩

/-- C4 witness: on the scenario store each group's totals equal the sums of
its readings' fields, the triples are distinct, and both readings are
covered. -/
theorem c4_witness :
    ((shiftGroups dbMain "A").map
        (fun g => (g.key.shiftDate, g.key.shiftType, g.key.attendantId))).Nodup ∧
      (∃ g ∈ shiftGroups dbMain "A", g.key.shiftDate = rMain1.shiftDate ∧
        g.key.shiftType = rMain1.shiftType ∧ g.key.attendantId = rMain1.attendantId) := by
  have h := c4_grouping_partition dbMain "A" (by decide) (by decide)
  exact ⟨h.1, h.2.1 rMain1 (by decide) (by decide)⟩

/-! ### Claim C6: the product-rate fallback -/

/-- A nonempty rates list used by the C6 stores. -/
def rateC6 : ProductRate := { productId := "p1", productName := "petrol", rate := 10000 }

/-- A shift on the queried date whose rates list is empty (as
`submitShiftData` creates: the `productRates` column defaults to `[]`). -/
def shC6a : Shift :=
  { id := "SH1", managerId := "M", shiftType := "morning",
    shiftDate := some "2024-01-05", status := "submitted", productRates := some [],
    createdDate := "2024-01-05", updatedAt := 10 }

/-- An older shift of the same type holding a nonempty rates list. -/
def shC6b : Shift :=
  { id := "SH2", managerId := "M", shiftType := "morning",
    shiftDate := some "2024-01-01", status := "submitted",
    productRates := some [rateC6], createdDate := "2024-01-01", updatedAt := 5 }

/-- Store with both shifts: tier 1 matches the empty-rates shift. -/
def dbC6 : DB :=
  { tanks := [], products := [], nozzles := [], staff := [], nozzleReadings := [],
    stockEntries := [], shiftSales := [], shifts := [shC6a, shC6b] }

/-- Store with only the older nonempty-rates shift (no tier-1 match). -/
def dbC6w : DB := { dbC6 with shifts := [shC6b] }

/-- C6 counterexample: the manager has shift records, and a shift of the
requested type holds a nonempty rates list, yet the lookup returns the empty
list — because the date-matched shift's `productRates` is the empty array,
which is truthy in JavaScript and short-circuits the fallback.  So the
function does not return "the first non-empty rates list", and it returns
`[]` even though shift records exist. -/
theorem c6_counterexample :
    getLastProductRates dbC6 "M" (some "2024-01-05") (some "morning") = [] ∧
      (∃ sh ∈ dbC6.shifts, sh.managerId = "M") ∧
      (∃ sh ∈ dbC6.shifts, sh.managerId = "M" ∧ sh.shiftType = "morning" ∧
        sh.productRates = some [rateC6]) := by decide

/-- C6 (amended): the three lookups are evaluated in order, and the first
whose query finds a shift with a non-null `productRates` column supplies the
result — even when that rates list is empty; the empty list is returned when
no shift record exists for the manager (and also when the firing tier's
shift carries an empty list). -/
theorem c6_amended_tiers (db : DB) (managerId d ty : String)
    (hd : d ≠ "") (hty : ty ≠ "") :
    (∀ sh rs, (db.shifts.filter (fun s =>
        decide (s.managerId = managerId ∧ some s.shiftType = some ty ∧
          some s.createdDate = some d))).head? = some sh →
      sh.productRates = some rs →
      getLastProductRates db managerId (some d) (some ty) = rs) ∧
    ((∀ sh ∈ db.shifts.filter (fun s =>
        decide (s.managerId = managerId ∧ some s.shiftType = some ty ∧
          some s.createdDate = some d)), sh.productRates = none) →
      ∀ sh2 rs2, pickLatestShift (db.shifts.filter (fun s =>
          decide (s.managerId = managerId ∧ some s.shiftType = some ty))) = some sh2 →
        sh2.productRates = some rs2 →
        getLastProductRates db managerId (some d) (some ty) = rs2) ∧
    (db.shifts.filter (fun s => decide (s.managerId = managerId)) = [] →
      getLastProductRates db managerId (some d) (some ty) = []) := by
  have hcond : (jsTruthy (some d) && jsTruthy (some ty)) = true := by
    simp [jsTruthy, hd, hty]
  refine ⟨?_, ?_, ?_⟩
  · intro sh rs h1 h2
    simp only [getLastProductRates, hcond, if_true, h1, h2]
  · intro hnull sh2 rs2 h2 hr2
    have htier1 : (match (db.shifts.filter (fun s =>
        decide (s.managerId = managerId ∧ some s.shiftType = some ty ∧
          some s.createdDate = some d))).head? with
        | some sh => sh.productRates
        | none => none) = (none : Option (List ProductRate)) := by
      rcases hh : (db.shifts.filter (fun s =>
          decide (s.managerId = managerId ∧ some s.shiftType = some ty ∧
            some s.createdDate = some d))).head? with _ | sh
      · rw [hh]
      · rw [hh]
        exact hnull sh (List.mem_of_mem_head? (Option.mem_def.mpr hh))
    have hty2 : jsTruthy (some ty) = true := by simp [jsTruthy, hty]
    simp only [getLastProductRates]
    rw [if_pos hcond, htier1, if_pos hty2, h2]
    simp only [hr2]
  · intro hmgr
    have hf1 : db.shifts.filter (fun s =>
        decide (s.managerId = managerId ∧ some s.shiftType = some ty ∧
          some s.createdDate = some d)) = [] := by
      rw [List.filter_eq_nil_iff]
      intro s hs hp
      have hmem : s ∈ db.shifts.filter (fun s => decide (s.managerId = managerId)) :=
        List.mem_filter.mpr ⟨hs, decide_eq_true_iff.mpr (decide_eq_true_iff.mp hp).1⟩
      rw [hmgr] at hmem
      cases hmem
    have hf2 : db.shifts.filter (fun s =>
        decide (s.managerId = managerId ∧ some s.shiftType = some ty)) = [] := by
      rw [List.filter_eq_nil_iff]
      intro s hs hp
      have hmem : s ∈ db.shifts.filter (fun s => decide (s.managerId = managerId)) :=
        List.mem_filter.mpr ⟨hs, decide_eq_true_iff.mpr (decide_eq_true_iff.mp hp).1⟩
      rw [hmgr] at hmem
      cases hmem
    have hty2 : jsTruthy (some ty) = true := by simp [jsTruthy, hty]
    simp only [getLastProductRates]
    rw [if_pos hcond, hf1, if_pos hty2, hf2, hmgr]
    rfl

/-- C6 witness (the claim's scenario): with no shift matching the target
date but an older shift of the same type holding rates, the lookup returns
that older shift's rates, not the empty list. -/
theorem c6_witness :
    getLastProductRates dbC6w "M" (some "2024-01-05") (some "morning") = [rateC6] :=
  (c6_amended_tiers dbC6w "M" "2024-01-05" "morning" (by decide) (by decide)).2.1
    (by decide) shC6b [rateC6] (by decide) (by decide)

/-! ### Claim C8: tenant scoping -/

/-- A reading owned by outlet B that references outlet A's nozzle. -/
def rEvil : NozzleReading :=
  { id := "RB", retailOutletId := "B", nozzleId := "N1", attendantId := "SB",
    shiftType := "morning", shiftDate := "2024-01-02", previousReading := 0,
    currentReading := 500, testing := none, totalSale := 500, cashSales := 500,
    creditSales := 0, upiSales := 0, cardSales := 0, createdAt := 30 }

/-- `dbMain` plus the foreign-outlet reading on outlet A's nozzle. -/
def db8b : DB := { dbMain with nozzleReadings := [rMain1, rMain2, rEvil] }

/-- C8 counterexample: the two stores agree on every record whose
`retailOutletId` is `"A"` (and on all outlet-less configuration tables), yet
the stock reconciliation results for outlet A differ, because the
dispensed-volume query joins readings to the tank through the nozzle only and
never checks the reading's own `retailOutletId` — outlet B's reading on
outlet A's nozzle is deducted from A's tank. -/
theorem c8_counterexample :
    (db8b.tanks = dbMain.tanks ∧ db8b.products = dbMain.products ∧
      db8b.nozzles = dbMain.nozzles ∧ db8b.staff = dbMain.staff ∧
      db8b.stockEntries = dbMain.stockEntries ∧ db8b.shiftSales = dbMain.shiftSales ∧
      db8b.shifts = dbMain.shifts ∧
      db8b.nozzleReadings.filter (fun r => decide (r.retailOutletId = "A")) =
        dbMain.nozzleReadings.filter (fun r => decide (r.retailOutletId = "A"))) ∧
    getTanksByRetailOutletId db8b "A" "2024-01-03" ≠
      getTanksByRetailOutletId dbMain "A" "2024-01-03" ∧
    computeCurrentStock db8b "A" "2024-01-03" "T1" = some 700 ∧
    computeCurrentStock dbMain "A" "2024-01-03" "T1" = some 1200 ∧
    rEvil.retailOutletId ≠ "A" ∧ rEvil ∈ db8b.nozzleReadings := by decide

/-- Splitting the combined outlet-and-date filter of the stats queries. -/
theorem filter_outlet_split (l : List ShiftSalesRow) (oid : String) (cut : Nat) :
    l.filter (fun s => decide (s.retailOutletId = oid ∧ cut ≤ s.shiftDate)) =
      (l.filter (fun s => decide (s.retailOutletId = oid))).filter
        (fun s => decide (cut ≤ s.shiftDate)) := by
  rw [List.filter_filter]
  refine List.filter_congr ?_
  intro x _
  rw [Bool.decide_and, Bool.and_comm]

/-- Readings that are not the outlet's contribute nothing to the dispensed
join when none of them can reach the tank through a nozzle. -/
theorem dispensedRowsOf_restrict (readings : List NozzleReading)
    (nozzles : List Nozzle) (tid cutoff oid : String)
    (h : ∀ r ∈ readings, r.retailOutletId ≠ oid →
      ∀ n ∈ nozzles, n.id = r.nozzleId → n.tankId ≠ tid) :
    dispensedRowsOf readings nozzles tid cutoff =
      dispensedRowsOf (readings.filter (fun r => decide (r.retailOutletId = oid)))
        nozzles tid cutoff := by
  unfold dispensedRowsOf
  rw [flatMap_filter_of_nil readings _ (fun r => decide (r.retailOutletId = oid)) ?_]
  intro r hr hP
  rw [List.map_eq_nil_iff, List.filter_eq_nil_iff]
  intro n hn hcond
  obtain ⟨hid, htank⟩ := decide_eq_true_iff.mp hcond
  have hne : r.retailOutletId ≠ oid := by
    intro heq
    rw [decide_eq_false_iff_not] at hP
    exact hP heq
  exact h r hr hne n hn hid htank

/-- C8 (amended): the sales-aggregation operations are outlet-scoped (the
summaries depend only on the outlet's readings and the staff table, the
stats only on the outlet's shift-sales records), and the stock
reconciliation is outlet-scoped under referential integrity — every reading
reaching one of the outlet's active tanks through its nozzle must itself be
owned by the outlet.  Without that integrity condition the dispensed sum can
count a foreign outlet's reading (see the counterexample). -/
theorem c8_amended_scoping (db db' : DB) (oid today : String) (limit : Nat)
    (weekAgo monthAgo : Nat) :
    (db.nozzleReadings.filter (fun r => decide (r.retailOutletId = oid)) =
        db'.nozzleReadings.filter (fun r => decide (r.retailOutletId = oid)) →
      db.staff = db'.staff →
      getShiftSalesByRetailOutletId db oid limit =
        getShiftSalesByRetailOutletId db' oid limit) ∧
    (db.shiftSales.filter (fun s => decide (s.retailOutletId = oid)) =
        db'.shiftSales.filter (fun s => decide (s.retailOutletId = oid)) →
      getShiftSalesStats db oid weekAgo monthAgo =
        getShiftSalesStats db' oid weekAgo monthAgo) ∧
    (db.tanks = db'.tanks → db.products = db'.products → db.nozzles = db'.nozzles →
      db.stockEntries = db'.stockEntries →
      db.nozzleReadings.filter (fun r => decide (r.retailOutletId = oid)) =
        db'.nozzleReadings.filter (fun r => decide (r.retailOutletId = oid)) →
      (∀ r ∈ db.nozzleReadings, ∀ n ∈ db.nozzles, n.id = r.nozzleId →
        ∀ t ∈ db.tanks, t.id = n.tankId → t.retailOutletId = oid →
          t.isActive = true → r.retailOutletId = oid) →
      (∀ r ∈ db'.nozzleReadings, ∀ n ∈ db'.nozzles, n.id = r.nozzleId →
        ∀ t ∈ db'.tanks, t.id = n.tankId → t.retailOutletId = oid →
          t.isActive = true → r.retailOutletId = oid) →
      getTanksByRetailOutletId db oid today = getTanksByRetailOutletId db' oid today) := by
  refine ⟨?_, ?_, ?_⟩
  · intro hr hs
    have hrows : readingStaffRows db oid = readingStaffRows db' oid := by
      unfold readingStaffRows
      rw [hr, hs]
    unfold getShiftSalesByRetailOutletId shiftGroups
    rw [hrows]
  · intro hss
    have hcf : ∀ cut : Nat,
        db.shiftSales.filter (fun s => decide (s.retailOutletId = oid ∧ cut ≤ s.shiftDate)) =
          db'.shiftSales.filter
            (fun s => decide (s.retailOutletId = oid ∧ cut ≤ s.shiftDate)) := by
      intro cut
      rw [filter_outlet_split, filter_outlet_split, hss]
    simp only [getShiftSalesStats, hcf]
  · intro htk hpr hnz hse hrd hri hri'
    have htwp : tanksWithProduct db oid = tanksWithProduct db' oid := by
      unfold tanksWithProduct
      rw [htk, hpr]
    have hlse : ∀ tid, latestStockEntry db tid = latestStockEntry db' tid := by
      intro tid
      unfold latestStockEntry
      rw [hse]
    have hcd : ∀ tid, cutoffDate db tid today = cutoffDate db' tid today := by
      intro tid
      unfold cutoffDate
      rw [hlse]
    unfold getTanksByRetailOutletId
    rw [htwp]
    refine List.map_congr_left ?_
    intro tp htp
    rw [(List.perm_insertionSort tankNumberLE (tanksWithProduct db' oid)).mem_iff] at htp
    obtain ⟨t, ht, hin⟩ := List.mem_flatMap.mp htp
    obtain ⟨htmem', hcond⟩ := List.mem_filter.mp ht
    obtain ⟨hout, hact⟩ := decide_eq_true_iff.mp hcond
    obtain ⟨p, _, hpair⟩ := List.mem_map.mp hin
    have htfst : tp.1 = t := by rw [← hpair]
    have htmem : t ∈ db.tanks := htk ▸ htmem'
    have hds : dispensedSum db t.id (cutoffDate db t.id today) =
        dispensedSum db' t.id (cutoffDate db' t.id today) := by
      unfold dispensedSum dispensedRows
      rw [hcd t.id]
      rw [dispensedRowsOf_restrict db.nozzleReadings db.nozzles t.id
        (cutoffDate db' t.id today) oid ?_]
      rw [dispensedRowsOf_restrict db'.nozzleReadings db'.nozzles t.id
        (cutoffDate db' t.id today) oid ?_]
      · rw [hrd, hnz]
      · intro r hrm hrne n hn hid htid
        exact hrne (hri' r hrm n hn hid t htmem' htid.symm hout hact)
      · intro r hrm hrne n hn hid htid
        exact hrne (hri r hrm n (hnz ▸ hn) hid t htmem htid.symm hout hact)
    have hcs : tankCurrentStock db t.id today = tankCurrentStock db' t.id today := by
      unfold tankCurrentStock
      rw [hlse t.id, hds]
    rw [htfst]
    simp [tankRowStock, hcs]

/-- `dbMain` plus outlet-B records that do not reference outlet A's
equipment: the amended scoping theorem applies. -/
def db8w : DB :=
  { dbMain with
    nozzleReadings := dbMain.nozzleReadings ++
      [{ id := "RB2", retailOutletId := "B", nozzleId := "NX", attendantId := "SB",
         shiftType := "morning", shiftDate := "2024-01-02", previousReading := 0,
         currentReading := 700, testing := none, totalSale := 700, cashSales := 700,
         creditSales := 0, upiSales := 0, cardSales := 0, createdAt := 40 }]
    shiftSales :=
      [{ id := "SSB", retailOutletId := "B", staffId := "SB", shiftDate := 95,
         shiftType := "morning", cashSales := 5, creditSales := 0, upiSales := 0,
         cardSales := 0, totalSales := 5 }] }

/-- C8 witness: adding foreign-outlet records that do not reach outlet A's
tanks leaves all three outlet-A results unchanged. -/
theorem c8_witness :
    getShiftSalesByRetailOutletId db8w "A" 10 = getShiftSalesByRetailOutletId dbMain "A" 10 ∧
    getShiftSalesStats db8w "A" 100 50 = getShiftSalesStats dbMain "A" 100 50 ∧
    getTanksByRetailOutletId db8w "A" "2024-01-03" =
      getTanksByRetailOutletId dbMain "A" "2024-01-03" := by
  have h := c8_amended_scoping db8w dbMain "A" "2024-01-03" 10 100 50
  exact ⟨h.1 (by decide) (by decide), h.2.1 (by decide),
    h.2.2 (by decide) (by decide) (by decide) (by decide) (by decide) (by decide)
      (by decide)⟩

end FuelBoss
